import Mathlib

/-!
Shallow embedding of the argus-cli enrichment pipeline core
(`src/argus_cli`): the result filter (`utils/filters.py`), the sorters
(`commands/lookup.py` and `argus.py`), the address normalizer
(`utils/parser.py`), the attribution store (`services/org_lookup.py`)
and the record merger (`services/lookup.py`).

Python strings are Lean `String`s, but every operation is implemented
over `String.data` (`List Char`) so that all definitions evaluate by
`decide`/`rfl`.  Python dicts carrying enrichment records are modelled
as insertion-ordered association lists `List (String × Val)`; raised
exceptions (KeyError / AttributeError) are modelled with `Except`.
-/

namespace Argus

/-- Decidable equality for `Except`, used to evaluate embedded fallible
operations on concrete inputs. -/
instance exceptDecidableEq {ε α : Type} [DecidableEq ε] [DecidableEq α] :
    DecidableEq (Except ε α) := fun a b =>
  match a, b with
  | .error x, .error y =>
    if h : x = y then .isTrue (congrArg Except.error h)
    else .isFalse (fun hh => h (by cases hh; rfl))
  | .ok x, .ok y =>
    if h : x = y then .isTrue (congrArg Except.ok h)
    else .isFalse (fun hh => h (by cases hh; rfl))
  | .error _, .ok _ => .isFalse (fun hh => Except.noConfusion hh)
  | .ok _, .error _ => .isFalse (fun hh => Except.noConfusion hh)

/-- ASCII upper-casing of a Python string (`str.upper`); the pipeline only
feeds ASCII country/city/platform names through it. -/
def pyUpper (s : String) : String := String.mk (s.data.map Char.toUpper)

/-- ASCII lower-casing of a Python string (`str.lower`). -/
def pyLower (s : String) : String := String.mk (s.data.map Char.toLower)

/-- Lexicographic strict comparison on char lists: the order Python uses for
`str < str` (code-point lexicographic). -/
def lexLt : List Char → List Char → Bool
  | [], [] => false
  | [], _ :: _ => true
  | _ :: _, [] => false
  | a :: as, b :: bs => if a < b then true else if b < a then false else lexLt as bs

/-- Python `a < b` on strings. -/
def strLt (a b : String) : Bool := lexLt a.data b.data

/-- Python `a <= b` on strings (total order: `¬ b < a`). -/
def strLe (a b : String) : Bool := !(lexLt b.data a.data)

/-- Python `needle in hay` on strings: contiguous substring test. -/
def strContains (hay needle : String) : Bool :=
  decide (needle.data <:+: hay.data)

/-- A Python value as it occurs in an enrichment record: `None`, a string,
an int, or a bool. -/
inductive Val where
  | none : Val
  | str : String → Val
  | int : Int → Val
  | bool : Bool → Val
deriving DecidableEq

/-- Python truthiness of a `Val` (`bool(v)`): `None`, `""`, `0`, `False`
are falsy. -/
def Val.truthy : Val → Bool
  | .none => false
  | .str s => !s.data.isEmpty
  | .int n => n != 0
  | .bool b => b

/-- Python `v is True`. -/
def Val.isPyTrue : Val → Bool
  | .bool true => true
  | _ => false

/-- Python `v is False`. -/
def Val.isPyFalse : Val → Bool
  | .bool false => true
  | _ => false

/-- An enrichment record: a Python dict in insertion order. -/
abbrev Record := List (String × Val)

/-- Python `d.get(k)`: the stored value, or `None` when the key is absent. -/
def dictGet (r : Record) (k : String) : Val :=
  match r.find? (fun p => p.1 == k) with
  | some p => p.2
  | Option.none => Val.none

/-- Python `d[k]`: the stored value, or a raised `KeyError` (modelled as
`Except.error` carrying the missing key) when the key is absent. -/
def dictItem (r : Record) (k : String) : Except String Val :=
  match r.find? (fun p => p.1 == k) with
  | some p => Except.ok p.2
  | Option.none => Except.error k

/-- Python `d[k] = v`: updates the value in place when the key exists,
otherwise appends the new key at the end (dict insertion order). -/
def dictSet (r : Record) (k : String) (v : Val) : Record :=
  if r.any (fun p => p.1 == k) then
    r.map (fun p => if p.1 == k then (k, v) else p)
  else r ++ [(k, v)]

/-- The keys of a record, in dict order. -/
def recordKeys (r : Record) : List String := r.map (fun p => p.1)

/-- Key-presence test on a record. -/
def hasKey (r : Record) (k : String) : Bool := r.any (fun p => p.1 == k)

/-- Python `v.upper()`: defined on strings, raises `AttributeError`
otherwise. -/
def valUpper : Val → Except String String
  | .str s => Except.ok (pyUpper s)
  | _ => Except.error "AttributeError: upper"

/-- Python `v.lower()`: defined on strings, raises `AttributeError`
otherwise. -/
def valLower : Val → Except String String
  | .str s => Except.ok (pyLower s)
  | _ => Except.error "AttributeError: lower"

/-- Python `v in xs` for a list of ints (`==` comparison; `True`/`False`
compare equal to `1`/`0`). -/
def valInInts : Val → List Int → Bool
  | .int n, xs => xs.contains n
  | .bool b, xs => xs.contains (if b then 1 else 0)
  | _, _ => false

/-- `ResultFilter` state after `__init__` of `utils/filters.py`: the
criteria lists already case-normalized (countries upper, the other text
criteria lower). -/
structure ResultFilter where
  exclude_countries : List String
  exclude_cities : List String
  exclude_asns : List Int
  exclude_orgs : List String
  exclude_org_managed : Bool
  exclude_not_org_managed : Bool
  exclude_platforms : List String
  exclude_org_ids : List String
deriving DecidableEq

/-- `ResultFilter.__init__` (filters.py lines 2-20): `None` arguments become
empty lists, countries are upper-cased, the other text criteria
lower-cased. -/
def mkResultFilter (countries cities : Option (List String))
    (asns : Option (List Int)) (orgs : Option (List String))
    (orgManaged notOrgManaged : Bool)
    (platforms orgIds : Option (List String)) : ResultFilter :=
  { exclude_countries := (countries.getD []).map pyUpper
  , exclude_cities := (cities.getD []).map pyLower
  , exclude_asns := asns.getD []
  , exclude_orgs := (orgs.getD []).map pyLower
  , exclude_org_managed := orgManaged
  , exclude_not_org_managed := notOrgManaged
  , exclude_platforms := (platforms.getD []).map pyLower
  , exclude_org_ids := (orgIds.getD []).map pyLower }

/-- Python `a or b` over exclusion clauses: `b` is reached only when `a`
neither raised nor produced a truthy value. -/
def orE (a b : Except String Bool) : Except String Bool :=
  match a with
  | Except.error e => Except.error e
  | Except.ok true => Except.ok true
  | Except.ok false => b

/-- One membership axis, e.g. `xs and read and norm(read) in xs` where
`read` may raise `KeyError` and `norm` (upper/lower) may raise
`AttributeError`.  An empty criteria list short-circuits before the read. -/
def memClause (xs : List String) (read : Except String Val)
    (norm : Val → Except String String) : Except String Bool :=
  if xs.isEmpty then Except.ok false
  else
    match read with
    | Except.error e => Except.error e
    | Except.ok v =>
      if v.truthy then
        match norm v with
        | Except.error e => Except.error e
        | Except.ok s => Except.ok (xs.contains s)
      else Except.ok false

/-- `ResultFilter._exclude_by_location` (filters.py lines 28-31): country
axis (`result["country"]`, upper-cased, exact match), then city axis
(`result["city"]`, lower-cased, exact match). -/
def exclude_by_location (f : ResultFilter) (r : Record) : Except String Bool :=
  orE (memClause f.exclude_countries (dictItem r "country") valUpper)
      (memClause f.exclude_cities (dictItem r "city") valLower)

/-- ASN axis of `_exclude_by_asn`: `self.exclude_asns and result["asn"] in
self.exclude_asns`. -/
def asnClause (xs : List Int) (read : Except String Val) : Except String Bool :=
  if xs.isEmpty then Except.ok false
  else
    match read with
    | Except.error e => Except.error e
    | Except.ok v => Except.ok (valInInts v xs)

/-- Organization-substring axis of `_exclude_by_asn`: guarded by
`result.get("asn_org")` truthiness, then a case-insensitive substring
match of any excluded org text. -/
def orgsClause (xs : List String) (v : Val) : Except String Bool :=
  if xs.isEmpty then Except.ok false
  else if v.truthy then
    match valLower v with
    | Except.error e => Except.error e
    | Except.ok s => Except.ok (xs.any (fun excl => strContains s excl))
  else Except.ok false

/-- `ResultFilter._exclude_by_asn` (filters.py lines 33-42). -/
def exclude_by_asn (f : ResultFilter) (r : Record) : Except String Bool :=
  orE (asnClause f.exclude_asns (dictItem r "asn"))
      (orgsClause f.exclude_orgs (dictGet r "asn_org"))

/-- `ResultFilter._exclude_by_org_status` (filters.py lines 44-53):
management-flag axes (`is True` / `is False` identity tests on
`result.get("org_managed")`), then platform and org-id membership axes
over `result.get(...)`. -/
def exclude_by_org_status (f : ResultFilter) (r : Record) : Except String Bool :=
  if f.exclude_org_managed && (dictGet r "org_managed").isPyTrue then Except.ok true
  else if f.exclude_not_org_managed && (dictGet r "org_managed").isPyFalse then Except.ok true
  else
    orE (memClause f.exclude_platforms (Except.ok (dictGet r "platform")) valLower)
        (memClause f.exclude_org_ids (Except.ok (dictGet r "org_id")) valLower)

/-- `ResultFilter.should_exclude` (filters.py lines 22-26): records with a
truthy `error` pass unconditionally; otherwise the three axis groups are
combined with a short-circuit `or`. -/
def should_exclude (f : ResultFilter) (r : Record) : Except String Bool :=
  if (dictGet r "error").truthy then Except.ok false
  else orE (exclude_by_location f r) (orE (exclude_by_asn f r) (exclude_by_org_status f r))

/-- `ResultFilter.filter_results` (filters.py lines 55-56): the list
comprehension keeping records `should_exclude` rejects; a raised
exception aborts the whole comprehension. -/
def filter_results (f : ResultFilter) : List Record → Except String (List Record)
  | [] => Except.ok []
  | r :: rs =>
    match should_exclude f r with
    | Except.error e => Except.error e
    | Except.ok ex =>
      match filter_results f rs with
      | Except.error e => Except.error e
      | Except.ok rest => Except.ok (if ex then rest else r :: rest)

/-! ## Attribution store (`services/org_lookup.py`) -/

/-- A value of an attribution index entry: either a single row position
(a Python `int`) or an iterable of row positions (list/set; its first
element is what `next(iter(...))` yields). -/
inductive IdxVal where
  | single : Int → IdxVal
  | multi : List Int → IdxVal
deriving DecidableEq

/-- A row of an attribution dataset: a dict, like enrichment records. -/
abbrev Row := List (String × Val)

/-- The self-describing row+index blob of a dataset file: `rows` plus a
mapping from field name to a mapping from field value to index value. -/
structure DbData where
  rows : List Row
  indexes : List (String × List (String × IdxVal))
deriving DecidableEq

/-- First binding of a key in a Python dict modelled as an association
list (`k in d` plus `d[k]` combined). -/
def assocFind {β : Type} (m : List (String × β)) (k : String) : Option β :=
  match m.find? (fun p => p.1 == k) with
  | some p => some p.2
  | Option.none => Option.none

/-- Python list subscript, including negative indices; `Option.none` is a
raised `IndexError`. -/
def pyListGet {β : Type} (l : List β) (i : Int) : Option β :=
  if i ≥ 0 then l.get? i.toNat
  else if i.natAbs ≤ l.length then l.get? (l.length - i.natAbs)
  else Option.none

/-- Python truthiness of an index entry: the int `0` and an empty
iterable are falsy. -/
def IdxVal.pyTruthy : IdxVal → Bool
  | .single n => n != 0
  | .multi l => !l.isEmpty

/-- `matching_indices if isinstance(matching_indices, int) else
next(iter(matching_indices))`; `Option.none` is a raised
`StopIteration`. -/
def IdxVal.firstIdx : IdxVal → Option Int
  | .single n => some n
  | .multi [] => Option.none
  | .multi (h :: _) => some h

/-- `OrgLookup._lookup_in_database` (org_lookup.py lines 69-106): find the
`ip` index, find the address in it, reject falsy index entries, take the
first row position, read the row (KeyError / IndexError / StopIteration
are caught and become a not-found).  A hit returns the triple
`(org_managed, org_id, platform)` with `org_managed = True`. -/
def lookupInDatabase (ip : String) (data : DbData) : Option (Val × Val × Val) :=
  match assocFind data.indexes "ip" with
  | Option.none => Option.none
  | some ipIndex =>
    match assocFind ipIndex ip with
    | Option.none => Option.none
    | some mi =>
      if mi.pyTruthy then
        match mi.firstIdx with
        | Option.none => Option.none
        | some i =>
          match pyListGet data.rows i with
          | Option.none => Option.none
          | some row => some (Val.bool true, dictGet row "org_id", dictGet row "platform")
      else Option.none

/-- `OrgLookup.lookup_ip` (org_lookup.py lines 53-67): first database (in
load order) reporting a hit wins; empty database list is a not-found. -/
def orgLookupIp (dbs : List (String × DbData)) (ip : String) : Option (Val × Val × Val) :=
  match dbs with
  | [] => Option.none
  | (_, d) :: rest =>
    match lookupInDatabase ip d with
    | some res => some res
    | Option.none => orgLookupIp rest ip

/-- The object a dataset file deserializes to: a row+index dict, or some
other falsy object (e.g. an empty dict, skipped by `if data:`). -/
inductive PyObj where
  | db : DbData → PyObj
  | falsyObj : PyObj
deriving DecidableEq

/-- The pickled payload of a dataset file: well-formed, or one that makes
`pickle.load` raise. -/
inductive PickleBlob where
  | ok : PyObj → PickleBlob
  | corrupt : PickleBlob
deriving DecidableEq

/-- A `.bin` dataset file on disk: a gzip-compressed pickle or a plain
uncompressed pickle. -/
inductive BinFile where
  | gz : PickleBlob → BinFile
  | plain : PickleBlob → BinFile
deriving DecidableEq

/-- Reading a file through `gzip.open`: yields the compressed payload for
a gzip file and raises `BadGzipFile` (modelled as `Except.error`) for a
plain file. -/
def gunzipFile : BinFile → Except Unit PickleBlob
  | .gz b => Except.ok b
  | .plain _ => Except.error ()

/-- Reading a file's raw bytes as a pickle: the payload of a plain file;
the raw bytes of a gzip file are never a valid pickle. -/
def rawBlob : BinFile → PickleBlob
  | .gz _ => PickleBlob.corrupt
  | .plain b => b

/-- `pickle.load`; `Option.none` is a raised unpickling error. -/
def pickleLoads : PickleBlob → Option PyObj
  | .ok o => some o
  | .corrupt => Option.none

/-- `OrgLookup._load_single_database` (org_lookup.py lines 39-51): try the
compressed format first, fall back to uncompressed on `OSError` /
`BadGzipFile`, and return `None` on any other failure. -/
def loadSingleDatabase (f : BinFile) : Option PyObj :=
  match gunzipFile f with
  | Except.ok blob => pickleLoads blob
  | Except.error _ => pickleLoads (rawBlob f)

/-- The `org/` directory as `load_databases` observes it: missing, or the
list of `*.bin` files (stem name and content) found by the glob. -/
inductive DirState where
  | missing : DirState
  | present : List (String × BinFile) → DirState

/-- In-memory state of an `OrgLookup` after loading. -/
structure OrgLookupState where
  databases : List (String × DbData)
  has_org_dbs : Bool
deriving DecidableEq

/-- One iteration of the load loop: a file contributes a database entry
exactly when it deserializes to a truthy object. -/
def loadEntry : String × BinFile → Option (String × DbData)
  | (name, f) =>
    match loadSingleDatabase f with
    | some (PyObj.db d) => some (name, d)
    | _ => Option.none

/-- `OrgLookup.load_databases` (org_lookup.py lines 12-37): missing
directory or no `.bin` files yield failure; otherwise `has_org_dbs` is
set, every file is loaded independently (failures skipped), and the
returned flag is `loaded_count > 0`. -/
def load_databases : DirState → Bool × OrgLookupState
  | .missing => (false, ⟨[], false⟩)
  | .present files =>
    if files.isEmpty then (false, ⟨[], false⟩)
    else
      let loaded := files.filterMap loadEntry
      (!loaded.isEmpty, ⟨loaded, true⟩)

/-! ## Record merger (`services/lookup.py`) -/

/-- Exceptions the geoip2 city/ASN reader calls can raise
(lookup.py lines 30-35). -/
inductive GeoExc where
  | addressNotFound : GeoExc
  | valueError : GeoExc
  | other : String → GeoExc

/-- Fields read from a geoip2 city response; `Option.none` is an absent
attribute. -/
structure CityResp where
  cityName : Option String
  regionName : Option String
  countryName : Option String
  isoCode : Option String
  postalCode : Option String

/-- Fields read from a geoip2 ASN response. -/
structure AsnResp where
  asnNumber : Option Int
  asnOrg : Option String

/-- Joint outcome of the `city_reader.city(ip)` / `asn_reader.asn(ip)`
calls. -/
inductive GeoResult where
  | exc : GeoExc → GeoResult
  | ok : CityResp → AsnResp → GeoResult

/-- An IP2Proxy `get_all` record (the fields lookup.py reads). -/
structure ProxyRecord where
  country_short : String
  proxy_type : String
  domain : String
  isp : String
  usage_type : String

/-- Outcome of the proxy-db branch: no db handle, a raised `get_all`
(swallowed), or a returned record (possibly falsy). -/
inductive ProxyResult where
  | noDb : ProxyResult
  | raised : ProxyResult
  | got : Option ProxyRecord → ProxyResult

/-- Python `x if x else None` on an optional string attribute (an empty
string collapses to `None`). -/
def truthyOrNoneStr : Option String → Val
  | Option.none => Val.none
  | some s => if s.data.isEmpty then Val.none else Val.str s

/-- Python `x if x else None` on an optional int attribute (`0` collapses
to `None`). -/
def truthyOrNoneInt : Option Int → Val
  | Option.none => Val.none
  | some n => if n == 0 then Val.none else Val.int n

/-- IP2Proxy's sentinel: `v if v != "-" else None`. -/
def dashToNone (s : String) : Val :=
  if s == "-" then Val.none else Val.str s

/-- The enrichment dict literal of lookup.py lines 37-53: all values
normalized by Python's `x if x else None`. -/
def baseRecord (c : CityResp) (a : AsnResp) (ip : String) : Record :=
  [("ip", Val.str ip), ("domain", Val.none),
   ("city", truthyOrNoneStr c.cityName),
   ("region", truthyOrNoneStr c.regionName),
   ("country", truthyOrNoneStr c.countryName),
   ("iso_code", truthyOrNoneStr c.isoCode),
   ("postal", truthyOrNoneStr c.postalCode),
   ("asn", truthyOrNoneInt a.asnNumber),
   ("asn_org", truthyOrNoneStr a.asnOrg),
   ("org_managed", Val.bool false),
   ("org_id", Val.none),
   ("platform", Val.none),
   ("error", Val.none)]

/-- The proxy-merge block of lookup.py lines 55-66: fields are assigned
only when a record came back (no raise, truthy) and it is known
(`country_short != "-"`); the five dict assignments in source order. -/
def mergeProxy (r : Record) (proxy : ProxyResult) : Record :=
  match proxy with
  | .got (some pr) =>
    if pr.country_short != "-" then
      dictSet (dictSet (dictSet (dictSet (dictSet r
        "proxy_type" (dashToNone pr.proxy_type))
        "domain" (dashToNone pr.domain))
        "isp" (dashToNone pr.isp))
        "domain_name" (dashToNone pr.domain))
        "usage_type" (dashToNone pr.usage_type)
    else r
  | _ => r

/-- The attribution-merge block of lookup.py lines 68-74: consulted only
when `has_org_dbs`; a hit assigns `org_managed`, `org_id` and `platform`
together. -/
def mergeOrg (r : Record) (hasOrgDbs : Bool) (orgDbs : List (String × DbData))
    (ip : String) : Record :=
  match hasOrgDbs, orgLookupIp orgDbs ip with
  | true, some (m, oid, pf) =>
    dictSet (dictSet (dictSet r "org_managed" m) "org_id" oid) "platform" pf
  | _, _ => r

/-- `GeoIPLookup.lookup_ip` (services/lookup.py lines 26-76): reader
exceptions yield a two-key error record; otherwise the full enrichment
dict is built, proxy fields are merged when the proxy record is known,
and an attribution hit overwrites `org_managed`/`org_id`/`platform`
together. -/
def lookup_ip (geo : GeoResult) (proxy : ProxyResult) (hasOrgDbs : Bool)
    (orgDbs : List (String × DbData)) (ip : String) : Record :=
  match geo with
  | .exc .addressNotFound => [("ip", Val.str ip), ("error", Val.str "IP not found in database")]
  | .exc .valueError => [("ip", Val.str ip), ("error", Val.str "Invalid IP format")]
  | .exc (.other msg) => [("ip", Val.str ip), ("error", Val.str msg)]
  | .ok c a => mergeOrg (mergeProxy (baseRecord c a ip) proxy) hasOrgDbs orgDbs ip

/-! ## Result sorters -/

/-- Rank used to totalize the value order across types (Python raises
`TypeError` on heterogeneous sort keys; on records whose sort field has a
uniform type — the only case Python defines — the rank never matters). -/
def valTypeRank : Val → Nat
  | Val.none => 0
  | .bool _ => 1
  | .int _ => 2
  | .str _ => 3

/-- The ordering Python's `sorted` uses on sort-key values: numeric on
ints, code-point lexicographic on strings, totalized across types by
`valTypeRank`. -/
def valLe (a b : Val) : Bool :=
  match a, b with
  | .int x, .int y => decide (x ≤ y)
  | .str x, .str y => strLe x y
  | .bool x, .bool y => !x || y
  | Val.none, Val.none => true
  | _, _ => decide (valTypeRank a ≤ valTypeRank b)

/-- The sort key of `LookupCommand._sort_results` (commands/lookup.py
lines 145-149): `(True, 0)` for an absent/None field (so it sorts after
every present value), `(False, value)` otherwise. -/
def sortKeyCmd (sortBy : String) (r : Record) : Bool × Val :=
  match dictGet r sortBy with
  | Val.none => (true, Val.int 0)
  | v => (false, v)

/-- Python tuple comparison on `(bool, value)` keys: `False < True`,
values compared only between equal first components. -/
def pairLe (a b : Bool × Val) : Bool :=
  if a.1 == b.1 then valLe a.2 b.2 else !a.1

/-- `LookupCommand._sort_results` (commands/lookup.py lines 144-151):
Python `sorted(results, key=sort_key)` is the stable ascending sort by
the key, embedded as insertion sort (the canonical stable sort, equal to
any stable ascending sort as a function). -/
def sort_results (results : List Record) (sortBy : String) : List Record :=
  List.insertionSort (fun x y => pairLe (sortKeyCmd sortBy x) (sortKeyCmd sortBy y) = true) results

/-- The inline sort key of `ArgusApp.run` (argus.py lines 102-105):
`x.get(sort_by) or ""` — or `x.get("asn") or 0` when sorting by ASN — so
an absent/None (or otherwise falsy) value becomes `""`/`0`. -/
def sortKeyRun (sortBy : String) (r : Record) : Val :=
  if sortBy != "asn" then
    let v := dictGet r sortBy
    if v.truthy then v else Val.str ""
  else
    let v := dictGet r sortBy
    if v.truthy then v else Val.int 0

/-- The `sorted(...)` call of `ArgusApp.run` (argus.py lines 102-105). -/
def run_sorted (results : List Record) (sortBy : String) : List Record :=
  List.insertionSort (fun x y => valLe (sortKeyRun sortBy x) (sortKeyRun sortBy y) = true) results

/-! ## Address normalizer (`utils/parser.py`) -/

/-- Decimal value of a digit list. -/
def digitsVal (l : List Char) : Nat :=
  l.foldl (fun a c => a * 10 + (c.toNat - 48)) 0

/-- One dotted-quad octet as Python `ipaddress` accepts it: 1-3 decimal
digits, no leading zero unless the octet is exactly "0", value at most
255. -/
def parseOctet (s : List Char) : Option Nat :=
  if s.isEmpty || decide (s.length > 3) then Option.none
  else if !(s.all Char.isDigit) then Option.none
  else if decide (s.length > 1) && (s.head? == some '0') then Option.none
  else
    let v := digitsVal s
    if v ≤ 255 then some v else Option.none

/-- Python `str.split(sep)` for a one-char separator. -/
def splitOnChar (sep : Char) : List Char → List (List Char)
  | [] => [[]]
  | c :: rest =>
    let r := splitOnChar sep rest
    if c == sep then [] :: r
    else
      match r with
      | h :: t => (c :: h) :: t
      | [] => [[c]]

/-- Numeric value of a dotted-quad IPv4 address string, as
`ipaddress.ip_address` parses it. -/
def parseIPv4 (s : List Char) : Option Nat :=
  match splitOnChar '.' s with
  | [a, b, c, d] =>
    match parseOctet a, parseOctet b, parseOctet c, parseOctet d with
    | some va, some vb, some vc, some vd =>
      some (((va * 256 + vb) * 256 + vc) * 256 + vd)
    | _, _, _, _ => Option.none
  | _ => Option.none

/-- A CIDR prefix length as `ipaddress.ip_network` accepts it: decimal
digits, no leading zero, at most 32. -/
def parsePrefixLen (s : List Char) : Option Nat :=
  if s.isEmpty then Option.none
  else if !(s.all Char.isDigit) then Option.none
  else if decide (s.length > 1) && (s.head? == some '0') then Option.none
  else
    let v := digitsVal s
    if v ≤ 32 then some v else Option.none

/-- `ipaddress.ip_network(cidr, strict=False)`: network base (host bits
masked off) and prefix length; a bare address is a /32. -/
def parseNetwork (s : String) : Option (Nat × Nat) :=
  match splitOnChar '/' s.data with
  | [a] =>
    match parseIPv4 a with
    | some ip => some (ip, 32)
    | Option.none => Option.none
  | [a, p] =>
    match parseIPv4 a, parsePrefixLen p with
    | some ip, some pl => some (ip - ip % 2 ^ (32 - pl), pl)
    | _, _ => Option.none
  | _ => Option.none

/-- Decimal string of a natural number. -/
def natToStr (n : Nat) : String := String.mk (Nat.toDigits 10 n)

/-- Dotted-quad rendering of a numeric IPv4 address (`str(ip)`). -/
def ipToString (n : Nat) : String :=
  natToStr (n / 16777216 % 256) ++ "." ++ natToStr (n / 65536 % 256) ++ "."
    ++ natToStr (n / 256 % 256) ++ "." ++ natToStr (n % 256)

/-- Numeric value of a dotted quad given octet by octet. -/
def ipNum (a b c d : Nat) : Nat := ((a * 256 + b) * 256 + c) * 256 + d

/-- Membership of an address in a CIDR network. -/
def inNetwork (n base pl : Nat) : Bool :=
  n / 2 ^ (32 - pl) == base / 2 ^ (32 - pl)

/-- CPython `ipaddress`'s IPv4 private-network list
(`IPv4Address.is_private`). -/
def isPrivateIp (n : Nat) : Bool :=
  inNetwork n (ipNum 0 0 0 0) 8 || inNetwork n (ipNum 10 0 0 0) 8 ||
  inNetwork n (ipNum 127 0 0 0) 8 || inNetwork n (ipNum 169 254 0 0) 16 ||
  inNetwork n (ipNum 172 16 0 0) 12 || inNetwork n (ipNum 192 0 0 0) 29 ||
  inNetwork n (ipNum 192 0 0 170) 31 || inNetwork n (ipNum 192 0 2 0) 24 ||
  inNetwork n (ipNum 192 168 0 0) 16 || inNetwork n (ipNum 198 18 0 0) 15 ||
  inNetwork n (ipNum 198 51 100 0) 24 || inNetwork n (ipNum 203 0 113 0) 24 ||
  inNetwork n (ipNum 240 0 0 0) 4 || inNetwork n (ipNum 255 255 255 255) 32

/-- CPython `IPv4Address.is_global`: not in the shared-address space
100.64.0.0/10 and not private. -/
def isGlobalIp (n : Nat) : Bool :=
  !(inNetwork n (ipNum 100 64 0 0) 10) && !(isPrivateIp n)

/-- `network.hosts()` of Python `ipaddress`: all host addresses; network
and broadcast addresses are excluded for prefixes shorter than /31, while
/31 and /32 count every address as a host. -/
def hostList (base pl : Nat) : List Nat :=
  if pl == 32 then [base]
  else if pl == 31 then [base, base + 1]
  else (List.range (2 ^ (32 - pl) - 2)).map (fun i => base + 1 + i)

/-- The number of host addresses of a block of the given prefix length. -/
def hostCount (pl : Nat) : Nat :=
  if pl == 32 then 1 else if pl == 31 then 2 else 2 ^ (32 - pl) - 2

/-- `FileParser.expand_cidr` (utils/parser.py lines 12-23): parse the
block, reject more than 1024 addresses with a descriptive error, and
return the globally-routable host addresses as strings. -/
def expand_cidr (cidr : String) : Except String (List String) :=
  match parseNetwork cidr with
  | Option.none => Except.error ("Invalid CIDR block: " ++ cidr)
  | some (base, pl) =>
    if 2 ^ (32 - pl) > 1024 then
      Except.error ("CIDR block " ++ cidr ++ " too large (max 1024 IPs)")
    else Except.ok (((hostList base pl).filter isGlobalIp).map ipToString)

/-- Python regex `\w` (word character), ASCII range. -/
def isWordChar (c : Char) : Bool := c.isAlphanum || c == '_'

/-- Maximal leading run of decimal digits and the remaining characters. -/
def digitRun : List Char → List Char × List Char
  | [] => ([], [])
  | c :: rest =>
    if c.isDigit then
      let p := digitRun rest
      (c :: p.1, p.2)
    else ([], c :: rest)

/-- Whether a digit run can serve as one `[0-9]{1,3}` octet of the
pattern. -/
def octetRunOk (d : List Char) : Bool := !d.isEmpty && decide (d.length ≤ 3)

/-- One attempt of the regex `\b(?:[0-9]{1,3}\.){3}[0-9]{1,3}\b` at the
current position (the leading boundary already checked by the scanner).
The attempt is deterministic: the first three octets are anchored by
literal dots and the last by the trailing word boundary, so greedy
backtracking never changes the outcome. -/
def matchIPAt (l : List Char) : Option (List Char × List Char) :=
  let p1 := digitRun l
  if !octetRunOk p1.1 then Option.none else
  match p1.2 with
  | '.' :: r1 =>
    let p2 := digitRun r1
    if !octetRunOk p2.1 then Option.none else
    match p2.2 with
    | '.' :: r2 =>
      let p3 := digitRun r2
      if !octetRunOk p3.1 then Option.none else
      match p3.2 with
      | '.' :: r3 =>
        let p4 := digitRun r3
        if !octetRunOk p4.1 then Option.none
        else
          match p4.2 with
          | [] => some (p1.1 ++ '.' :: p2.1 ++ '.' :: p3.1 ++ '.' :: p4.1, [])
          | c :: cs =>
            if isWordChar c then Option.none
            else some (p1.1 ++ '.' :: p2.1 ++ '.' :: p3.1 ++ '.' :: p4.1, c :: cs)
      | _ => Option.none
    | _ => Option.none
  | _ => Option.none

/-- Left-to-right scan of `re.finditer` for the dotted-quad pattern:
non-overlapping leftmost matches, with the word-boundary condition
tracked through the previous character. -/
def scanAux : Nat → Bool → List Char → List (List Char)
  | 0, _, _ => []
  | _ + 1, _, [] => []
  | fuel + 1, prevWord, c :: rest =>
    if !prevWord && c.isDigit then
      match matchIPAt (c :: rest) with
      | some (m, r) => m :: scanAux fuel true r
      | Option.none => scanAux fuel (isWordChar c) rest
    else scanAux fuel (isWordChar c) rest

/-- All regex matches of the dotted-quad pattern in a text, in scan
order. -/
def ipMatches (text : String) : List String :=
  (scanAux text.data.length false text.data).map String.mk

/-- The per-match validation of `extract_ips`:
`ipaddress.ip_address(m)` succeeds and the address `is_global`. -/
def pyIpCheck (s : String) : Bool :=
  match parseIPv4 s.data with
  | some n => isGlobalIp n
  | Option.none => false

/-- `FileParser.extract_ips` (utils/parser.py lines 26-35): regex matches,
individually validated and filtered to globally-routable addresses,
collected into a set and returned by `sorted` — the ascending
code-point-lexicographic order on the distinct address strings. -/
def extract_ips (text : String) : List String :=
  List.insertionSort (fun a b => strLe a b = true)
    (((ipMatches text).filter pyIpCheck).dedup)

/-! ## Concrete fixtures used in instance theorems -/

/-- The enrichment keys every error-free merged record carries. -/
def enrichKeys : List String :=
  ["domain", "city", "region", "country", "iso_code", "postal", "asn",
   "asn_org", "org_managed", "org_id", "platform"]

/-- A sample attribution row. -/
def sampleRow : Row := [("org_id", Val.str "o-1"), ("platform", Val.str "aws")]

/-- A dataset whose ip index maps the address to the plain integer row
index 0. -/
def dbSingleZero : DbData :=
  { rows := [sampleRow], indexes := [("ip", [("1.2.3.4", IdxVal.single 0)])] }

/-- The same dataset with the index entry encoded as the one-element
collection [0]. -/
def dbMultiZero : DbData :=
  { rows := [sampleRow], indexes := [("ip", [("1.2.3.4", IdxVal.multi [0])])] }

/-- A geo city response with every attribute absent. -/
def cityNone : CityResp :=
  ⟨Option.none, Option.none, Option.none, Option.none, Option.none⟩

/-- An ASN response with every attribute absent. -/
def asnNone : AsnResp := ⟨Option.none, Option.none⟩

/-- Records from the spec's sorting scenario. -/
def recAsn15169 : Record :=
  [("ip", Val.str "1.1.1.1"), ("asn", Val.int 15169), ("error", Val.none)]

/-- Second record of the sorting scenario. -/
def recAsn13335 : Record :=
  [("ip", Val.str "2.2.2.2"), ("asn", Val.int 13335), ("error", Val.none)]

/-- Absent-ASN record of the sorting scenario. -/
def recAsnNone : Record :=
  [("ip", Val.str "3.3.3.3"), ("asn", Val.none), ("error", Val.none)]

/-- A filter configuration with every axis populated. -/
def allAxesFilter : ResultFilter :=
  mkResultFilter (some ["US"]) (some ["Austin"]) (some [15169]) (some ["google"])
    true true (some ["aws"]) (some ["o-1"])

/-- An error-free record whose country, city, asn, asn_org, platform and
org_id are all present but None. -/
def noneFieldsRecord : Record :=
  [("ip", Val.str "1.1.1.1"), ("country", Val.none), ("city", Val.none),
   ("asn", Val.none), ("asn_org", Val.none), ("org_managed", Val.bool false),
   ("org_id", Val.none), ("platform", Val.none), ("error", Val.none)]

/-- The all-axes filter with the management-flag axes off, for error-free
concrete records. -/
def sixAxesFilter : ResultFilter :=
  mkResultFilter (some ["US"]) (some ["Austin"]) (some [15169]) (some ["google"])
    false false (some ["aws"]) (some ["o-1"])

/-! ## Generic dictionary lemmas -/

theorem find?_append' {α : Type} (l₁ l₂ : List α) (p : α → Bool) :
    (l₁ ++ l₂).find? p
      = match l₁.find? p with
        | some x => some x
        | Option.none => l₂.find? p := by
  induction l₁ with
  | nil => rfl
  | cons a l ih =>
    by_cases h : p a = true
    · simp [List.find?_cons_of_pos _ h]
    · simp only [List.cons_append, List.find?_cons_of_neg _ h, ih]

theorem find?_map_replace (ps : Record) {k k' : String} (v : Val) (h : k' ≠ k) :
    ((ps.map (fun p => if p.1 == k' then (k', v) else p)).find? (fun p => p.1 == k))
      = ps.find? (fun p => p.1 == k) := by
  have h1 : ((k' : String) == k) = false := by simpa using h
  induction ps with
  | nil => rfl
  | cons p ps ih =>
    simp only [List.map_cons]
    by_cases hp : (p.1 == k') = true
    · have h2 : (p.1 == k) = false := by
        have hpk' : p.1 = k' := by simpa using hp
        rw [hpk']
        exact h1
      rw [if_pos hp,
        @List.find?_cons_of_neg _ (fun q => q.1 == k) (k', v) _ (by simp [h1]),
        @List.find?_cons_of_neg _ (fun q => q.1 == k) p _ (by simp [h2]),
        ih]
    · by_cases h2 : (p.1 == k) = true
      · rw [if_neg hp,
          @List.find?_cons_of_pos _ (fun q => q.1 == k) p _ h2,
          @List.find?_cons_of_pos _ (fun q => q.1 == k) p _ h2]
      · rw [if_neg hp,
          @List.find?_cons_of_neg _ (fun q => q.1 == k) p _ h2,
          @List.find?_cons_of_neg _ (fun q => q.1 == k) p _ h2,
          ih]

theorem find?_map_replace_self (ps : Record) (k : String) (v : Val)
    (ha : ps.any (fun p => p.1 == k) = true) :
    (ps.map (fun p => if p.1 == k then (k, v) else p)).find? (fun p => p.1 == k)
      = some (k, v) := by
  induction ps with
  | nil => simp at ha
  | cons p ps ih =>
    simp only [List.map_cons]
    by_cases hp : (p.1 == k) = true
    · rw [if_pos hp, @List.find?_cons_of_pos _ (fun q => q.1 == k) (k, v) _ (by simp)]
    · have ha' : ps.any (fun p => p.1 == k) = true := by
        simpa [List.any_cons, hp] using ha
      rw [if_neg hp, @List.find?_cons_of_neg _ (fun q => q.1 == k) p _ hp, ih ha']

theorem dictGet_dictSet_ne (r : Record) {k k' : String} (v : Val) (h : k' ≠ k) :
    dictGet (dictSet r k' v) k = dictGet r k := by
  unfold dictSet
  by_cases ha : r.any (fun p => p.1 == k') = true
  · rw [if_pos ha]
    unfold dictGet
    rw [find?_map_replace r v h]
  · rw [if_neg ha]
    unfold dictGet
    rw [find?_append']
    cases hf : r.find? (fun p => p.1 == k) with
    | some p => rfl
    | none =>
      rw [@List.find?_cons_of_neg _ (fun q => q.1 == k) (k', v) [] (by simpa using h)]
      rfl

theorem dictGet_dictSet_self (r : Record) (k : String) (v : Val) :
    dictGet (dictSet r k v) k = v := by
  unfold dictSet
  by_cases ha : r.any (fun p => p.1 == k) = true
  · rw [if_pos ha]
    unfold dictGet
    rw [find?_map_replace_self r k v ha]
  · rw [if_neg ha]
    unfold dictGet
    rw [find?_append']
    have hf : r.find? (fun p => p.1 == k) = Option.none := by
      rw [List.find?_eq_none]
      intro x hx hpx
      exact ha (List.any_eq_true.mpr ⟨x, hx, hpx⟩)
    rw [hf]
    rw [@List.find?_cons_of_pos _ (fun q => q.1 == k) (k, v) [] (by simp)]

theorem hasKey_dictSet_of {r : Record} {k : String} (k' : String) (v : Val)
    (h : hasKey r k = true) : hasKey (dictSet r k' v) k = true := by
  unfold dictSet
  by_cases ha : r.any (fun p => p.1 == k') = true
  · rw [if_pos ha]
    unfold hasKey at h ⊢
    rcases List.any_eq_true.mp h with ⟨x, hx, hpx⟩
    apply List.any_eq_true.mpr
    by_cases hxk' : (x.1 == k') = true
    · refine ⟨(k', v), List.mem_map.mpr ⟨x, hx, by rw [if_pos hxk']⟩, ?_⟩
      have e1 : x.1 = k' := by simpa using hxk'
      have e2 : x.1 = k := by simpa using hpx
      simp [← e1, e2]
    · exact ⟨x, List.mem_map.mpr ⟨x, hx, by rw [if_neg hxk']⟩, hpx⟩
  · rw [if_neg ha]
    unfold hasKey at h ⊢
    rw [List.any_append]
    simp [h]

theorem hasKey_dictSet_self (r : Record) (k : String) (v : Val) :
    hasKey (dictSet r k v) k = true := by
  unfold dictSet
  by_cases ha : r.any (fun p => p.1 == k) = true
  · rw [if_pos ha]
    unfold hasKey
    rcases List.any_eq_true.mp ha with ⟨x, hx, hpx⟩
    apply List.any_eq_true.mpr
    exact ⟨(k, v), List.mem_map.mpr ⟨x, hx, by rw [if_pos hpx]⟩, by simp⟩
  · rw [if_neg ha]
    unfold hasKey
    rw [List.any_append]
    simp

theorem dictItem_eq_ok {r : Record} {k : String} (h : hasKey r k = true) :
    dictItem r k = Except.ok (dictGet r k) := by
  unfold hasKey at h
  unfold dictItem dictGet
  cases hf : r.find? (fun p => p.1 == k) with
  | some p => rfl
  | none =>
    rw [List.find?_eq_none] at hf
    rcases List.any_eq_true.mp h with ⟨x, hx, hpx⟩
    exact absurd hpx (hf x hx)

/-! ## String order lemmas -/

theorem lexLt_irrefl (a : List Char) : lexLt a a = false := by
  induction a with
  | nil => rfl
  | cons c cs ih => simp [lexLt, ih]

theorem lexLt_asymm : ∀ {a b : List Char}, lexLt a b = true → lexLt b a = false
  | [], [], h => by simp [lexLt] at h
  | [], _ :: _, _ => by simp [lexLt]
  | _ :: _, [], h => by simp [lexLt] at h
  | a :: as, b :: bs, h => by
    simp only [lexLt] at h ⊢
    by_cases h1 : a < b
    · simp [h1, lt_asymm h1]
    · by_cases h2 : b < a
      · simp [h1, h2] at h
      · simp only [h1, h2, if_false] at h ⊢
        exact lexLt_asymm h

theorem lexLt_trans : ∀ {a b c : List Char},
    lexLt a b = true → lexLt b c = true → lexLt a c = true
  | [], b, [], _, h2 => by cases b <;> simp [lexLt] at h2
  | [], _, _ :: _, _, _ => by simp [lexLt]
  | _ :: _, [], _, h1, _ => by simp [lexLt] at h1
  | _ :: _, _ :: _, [], _, h2 => by simp [lexLt] at h2
  | x :: xs, y :: ys, z :: zs, h1, h2 => by
    by_cases hxy : x < y
    · by_cases hyz : y < z
      · simp [lexLt, lt_trans hxy hyz]
      · by_cases hzy : z < y
        · simp [lexLt, hyz, hzy] at h2
        · have hyz' : y = z := le_antisymm (not_lt.mp hzy) (not_lt.mp hyz)
          subst hyz'
          simp [lexLt, hxy]
    · by_cases hyx : y < x
      · simp [lexLt, hxy, hyx] at h1
      · have hxy' : x = y := le_antisymm (not_lt.mp hyx) (not_lt.mp hxy)
        subst hxy'
        simp only [lexLt, lt_irrefl, if_false] at h1
        by_cases hxz : x < z
        · simp [lexLt, hxz]
        · by_cases hzx : z < x
          · simp [lexLt, hxz, hzx] at h2
          · have hxz' : x = z := le_antisymm (not_lt.mp hzx) (not_lt.mp hxz)
            subst hxz'
            simp only [lexLt, lt_irrefl, if_false] at h2 ⊢
            exact lexLt_trans h1 h2

theorem lexLt_connex : ∀ {a b : List Char},
    lexLt a b = false → lexLt b a = false → a = b
  | [], [], _, _ => rfl
  | [], _ :: _, h1, _ => by simp [lexLt] at h1
  | _ :: _, [], _, h2 => by simp [lexLt] at h2
  | a :: as, b :: bs, h1, h2 => by
    by_cases hab : a < b
    · simp [lexLt, hab] at h1
    · by_cases hba : b < a
      · simp [lexLt, hba] at h2
      · have he : a = b := le_antisymm (not_lt.mp hba) (not_lt.mp hab)
        subst he
        simp only [lexLt, lt_irrefl, if_false] at h1 h2
        rw [lexLt_connex h1 h2]

theorem strLe_total (a b : String) : (strLe a b || strLe b a) = true := by
  unfold strLe
  by_cases h : lexLt b.data a.data = true
  · simp [h, lexLt_asymm h]
  · have h' : lexLt b.data a.data = false := by simpa using h
    simp [h']

theorem strLe_trans {a b c : String} (h1 : strLe a b = true) (h2 : strLe b c = true) :
    strLe a c = true := by
  unfold strLe at h1 h2 ⊢
  simp only [Bool.not_eq_true'] at h1 h2 ⊢
  by_cases h : lexLt c.data a.data = true
  · by_cases hab : lexLt a.data b.data = true
    · have hcb := lexLt_trans h hab
      rw [h2] at hcb
      exact Bool.noConfusion hcb
    · have hab' : lexLt a.data b.data = false := by simpa using hab
      have he : a.data = b.data := lexLt_connex hab' h1
      rw [he] at h
      rw [h2] at h
      exact Bool.noConfusion h
  · simpa using h

theorem strLt_of_le_ne {a b : String} (h1 : strLe a b = true) (h2 : a ≠ b) :
    strLt a b = true := by
  unfold strLe at h1
  unfold strLt
  simp only [Bool.not_eq_true'] at h1
  by_cases h : lexLt a.data b.data = true
  · exact h
  · have h' : lexLt a.data b.data = false := by simpa using h
    exact absurd (String.ext (lexLt_connex h' h1)) h2

/-! ## Sort-key order lemmas -/

theorem valLe_total : ∀ (a b : Val), (valLe a b || valLe b a) = true
  | Val.none, Val.none => rfl
  | Val.none, .str _ => rfl
  | Val.none, .int _ => rfl
  | Val.none, .bool _ => rfl
  | .str _, Val.none => rfl
  | .str x, .str y => strLe_total x y
  | .str _, .int _ => rfl
  | .str _, .bool _ => rfl
  | .int _, Val.none => rfl
  | .int _, .str _ => rfl
  | .int x, .int y => by
    simp only [valLe, Bool.or_eq_true, decide_eq_true_eq]
    omega
  | .int _, .bool _ => rfl
  | .bool _, Val.none => rfl
  | .bool _, .str _ => rfl
  | .bool _, .int _ => rfl
  | .bool x, .bool y => by cases x <;> cases y <;> rfl

theorem valLe_trans : ∀ {a b c : Val},
    valLe a b = true → valLe b c = true → valLe a c = true := by
  intro a b c h1 h2
  cases a <;> cases b <;> cases c <;>
    first
      | rfl
      | exact Bool.noConfusion h1
      | exact Bool.noConfusion h2
      | exact strLe_trans h1 h2
      | (simp only [valLe, decide_eq_true_eq] at h1 h2 ⊢; omega)
      | (rename_i x y z
         cases x <;> cases y <;> cases z <;>
           first
             | rfl
             | exact Bool.noConfusion h1
             | exact Bool.noConfusion h2)

theorem pairLe_total (a b : Bool × Val) : (pairLe a b || pairLe b a) = true := by
  obtain ⟨x, v⟩ := a
  obtain ⟨y, w⟩ := b
  cases x <;> cases y <;>
    first
      | rfl
      | exact valLe_total v w

theorem pairLe_trans : ∀ {a b c : Bool × Val},
    pairLe a b = true → pairLe b c = true → pairLe a c = true := by
  intro ⟨x, u⟩ ⟨y, v⟩ ⟨z, w⟩ h1 h2
  cases x <;> cases y <;> cases z <;>
    first
      | rfl
      | exact Bool.noConfusion h1
      | exact Bool.noConfusion h2
      | exact valLe_trans h1 h2

/-! ## Filter clause lemmas -/

theorem memClause_none_val (xs : List String) (norm : Val → Except String String) :
    memClause xs (Except.ok Val.none) norm = Except.ok false := by
  unfold memClause
  by_cases hxs : xs.isEmpty = true
  · rw [if_pos hxs]
  · rw [if_neg hxs]
    rfl

theorem asnClause_none_val (xs : List Int) :
    asnClause xs (Except.ok Val.none) = Except.ok false := by
  unfold asnClause
  by_cases hxs : xs.isEmpty = true
  · rw [if_pos hxs]
  · rw [if_neg hxs]
    rfl

theorem orgsClause_none_val (xs : List String) :
    orgsClause xs Val.none = Except.ok false := by
  unfold orgsClause
  by_cases hxs : xs.isEmpty = true
  · rw [if_pos hxs]
  · rw [if_neg hxs]
    rfl

theorem filter_keeps {f : ResultFilter} {r : Record}
    (h : should_exclude f r = Except.ok false) :
    ∀ rs out, filter_results f rs = Except.ok out → r ∈ rs → r ∈ out := by
  intro rs
  induction rs with
  | nil => intro out _ hmem; exact absurd hmem (List.not_mem_nil r)
  | cons x xs ih =>
    intro out hf hmem
    unfold filter_results at hf
    cases hse : should_exclude f x with
    | error e => rw [hse] at hf; exact Except.noConfusion hf
    | ok ex =>
      rw [hse] at hf
      cases hrest : filter_results f xs with
      | error e => rw [hrest] at hf; exact Except.noConfusion hf
      | ok rest =>
        rw [hrest] at hf
        injection hf with hout
        subst hout
        rcases List.mem_cons.mp hmem with heq | hmem'
        · subst heq
          rw [h] at hse
          injection hse with hex
          rw [← hex]
          exact List.mem_cons_self _ _
        · have hr : r ∈ rest := ih rest hrest hmem'
          cases ex
          · exact List.mem_cons_of_mem _ hr
          · exact hr

/-! ## Merger composition lemmas -/

theorem mergeProxy_known (r : Record) (pr : ProxyRecord)
    (hcs : (pr.country_short != "-") = true) :
    mergeProxy r (ProxyResult.got (some pr))
      = dictSet (dictSet (dictSet (dictSet (dictSet r
          "proxy_type" (dashToNone pr.proxy_type))
          "domain" (dashToNone pr.domain))
          "isp" (dashToNone pr.isp))
          "domain_name" (dashToNone pr.domain))
          "usage_type" (dashToNone pr.usage_type) := by
  show (if pr.country_short != "-" then
      dictSet (dictSet (dictSet (dictSet (dictSet r
        "proxy_type" (dashToNone pr.proxy_type))
        "domain" (dashToNone pr.domain))
        "isp" (dashToNone pr.isp))
        "domain_name" (dashToNone pr.domain))
        "usage_type" (dashToNone pr.usage_type)
    else r) = _
  rw [if_pos hcs]

theorem mergeProxy_unknown (r : Record) (pr : ProxyRecord)
    (hcs : (pr.country_short != "-") = false) :
    mergeProxy r (ProxyResult.got (some pr)) = r := by
  show (if pr.country_short != "-" then
      dictSet (dictSet (dictSet (dictSet (dictSet r
        "proxy_type" (dashToNone pr.proxy_type))
        "domain" (dashToNone pr.domain))
        "isp" (dashToNone pr.isp))
        "domain_name" (dashToNone pr.domain))
        "usage_type" (dashToNone pr.usage_type)
    else r) = r
  rw [if_neg (by simp [hcs])]

theorem dictGet_mergeProxy (r : Record) (proxy : ProxyResult) {k : String}
    (h1 : k ≠ "proxy_type") (h2 : k ≠ "domain") (h3 : k ≠ "isp")
    (h4 : k ≠ "domain_name") (h5 : k ≠ "usage_type") :
    dictGet (mergeProxy r proxy) k = dictGet r k := by
  cases proxy with
  | noDb => rfl
  | raised => rfl
  | got op =>
    cases op with
    | none => rfl
    | some pr =>
      by_cases hcs : (pr.country_short != "-") = true
      · rw [mergeProxy_known r pr hcs, dictGet_dictSet_ne _ _ (Ne.symm h5),
          dictGet_dictSet_ne _ _ (Ne.symm h4), dictGet_dictSet_ne _ _ (Ne.symm h3),
          dictGet_dictSet_ne _ _ (Ne.symm h2), dictGet_dictSet_ne _ _ (Ne.symm h1)]
      · have hcs' : (pr.country_short != "-") = false := by simpa using hcs
        rw [mergeProxy_unknown r pr hcs']

theorem hasKey_mergeProxy (r : Record) (proxy : ProxyResult) {k : String}
    (h : hasKey r k = true) : hasKey (mergeProxy r proxy) k = true := by
  cases proxy with
  | noDb => exact h
  | raised => exact h
  | got op =>
    cases op with
    | none => exact h
    | some pr =>
      by_cases hcs : (pr.country_short != "-") = true
      · rw [mergeProxy_known r pr hcs]
        exact hasKey_dictSet_of _ _ (hasKey_dictSet_of _ _ (hasKey_dictSet_of _ _
          (hasKey_dictSet_of _ _ (hasKey_dictSet_of _ _ h))))
      · have hcs' : (pr.country_short != "-") = false := by simpa using hcs
        rw [mergeProxy_unknown r pr hcs']
        exact h

theorem mergeOrg_miss (r : Record) (hasOrg : Bool) (dbs : List (String × DbData))
    (ip : String) (h : hasOrg = false ∨ orgLookupIp dbs ip = Option.none) :
    mergeOrg r hasOrg dbs ip = r := by
  unfold mergeOrg
  rcases h with h | h
  · subst h; rfl
  · rw [h]; cases hasOrg <;> rfl

theorem mergeOrg_hit (r : Record) (dbs : List (String × DbData)) (ip : String)
    (m oid pf : Val) (h : orgLookupIp dbs ip = some (m, oid, pf)) :
    mergeOrg r true dbs ip
      = dictSet (dictSet (dictSet r "org_managed" m) "org_id" oid) "platform" pf := by
  unfold mergeOrg
  rw [h]

theorem dictGet_mergeOrg_ne (r : Record) (hasOrg : Bool) (dbs : List (String × DbData))
    (ip : String) {k : String} (h1 : k ≠ "org_managed") (h2 : k ≠ "org_id")
    (h3 : k ≠ "platform") :
    dictGet (mergeOrg r hasOrg dbs ip) k = dictGet r k := by
  cases hasOrg with
  | false => rw [mergeOrg_miss r false dbs ip (Or.inl rfl)]
  | true =>
    cases ho : orgLookupIp dbs ip with
    | none => rw [mergeOrg_miss r true dbs ip (Or.inr ho)]
    | some t =>
      obtain ⟨m, oid, pf⟩ := t
      rw [mergeOrg_hit r dbs ip m oid pf ho, dictGet_dictSet_ne _ _ (Ne.symm h3),
        dictGet_dictSet_ne _ _ (Ne.symm h2), dictGet_dictSet_ne _ _ (Ne.symm h1)]

theorem hasKey_mergeOrg (r : Record) (hasOrg : Bool) (dbs : List (String × DbData))
    (ip : String) {k : String} (h : hasKey r k = true) :
    hasKey (mergeOrg r hasOrg dbs ip) k = true := by
  cases hasOrg with
  | false => rw [mergeOrg_miss r false dbs ip (Or.inl rfl)]; exact h
  | true =>
    cases ho : orgLookupIp dbs ip with
    | none => rw [mergeOrg_miss r true dbs ip (Or.inr ho)]; exact h
    | some t =>
      obtain ⟨m, oid, pf⟩ := t
      rw [mergeOrg_hit r dbs ip m oid pf ho]
      exact hasKey_dictSet_of _ _ (hasKey_dictSet_of _ _ (hasKey_dictSet_of _ _ h))

theorem baseRecord_hasKeys (c : CityResp) (a : AsnResp) (ip : String) :
    ∀ k ∈ enrichKeys, hasKey (baseRecord c a ip) k = true := by
  intro k hk
  simp only [enrichKeys, List.mem_cons, List.not_mem_nil, or_false] at hk
  rcases hk with rfl | rfl | rfl | rfl | rfl | rfl | rfl | rfl | rfl | rfl | rfl <;> rfl

/-! ## Attribution lookup lemmas -/

theorem lookupInDatabase_managed {ip : String} {d : DbData} {res : Val × Val × Val}
    (h : lookupInDatabase ip d = some res) : res.1 = Val.bool true := by
  unfold lookupInDatabase at h
  repeat' split at h
  all_goals
    first
      | exact Option.noConfusion h
      | (injection h with h'; subst h'; rfl)

theorem orgLookupIp_managed : ∀ (dbs : List (String × DbData)) (ip : String)
    (res : Val × Val × Val), orgLookupIp dbs ip = some res → res.1 = Val.bool true := by
  intro dbs
  induction dbs with
  | nil => intro ip res h; exact Option.noConfusion h
  | cons p rest ih =>
    obtain ⟨n, d⟩ := p
    intro ip res h
    unfold orgLookupIp at h
    cases hd : lookupInDatabase ip d with
    | some r0 =>
      rw [hd] at h
      injection h with h'
      subst h'
      exact lookupInDatabase_managed hd
    | none =>
      rw [hd] at h
      exact ih ip res h

theorem orgLookupIp_cons_hit (name : String) (d : DbData)
    (rest : List (String × DbData)) (ip : String) (res : Val × Val × Val)
    (h : lookupInDatabase ip d = some res) :
    orgLookupIp ((name, d) :: rest) ip = some res := by
  unfold orgLookupIp
  rw [h]

theorem orgLookupIp_cons_miss (name : String) (d : DbData)
    (rest : List (String × DbData)) (ip : String)
    (h : lookupInDatabase ip d = Option.none) :
    orgLookupIp ((name, d) :: rest) ip = orgLookupIp rest ip := by
  show (match lookupInDatabase ip d with
        | some res => some res
        | Option.none => orgLookupIp rest ip) = orgLookupIp rest ip
  rw [h]

/-! ## Sorter and normalizer lemmas -/

theorem sortKeyCmd_absent {sortBy : String} {r : Record}
    (h : (sortKeyCmd sortBy r).1 = true) : sortKeyCmd sortBy r = (true, Val.int 0) := by
  unfold sortKeyCmd at h ⊢
  cases hv : dictGet r sortBy <;> rw [hv] at h <;>
    first
      | rfl
      | exact Bool.noConfusion h

theorem hostList_length (base pl : Nat) : (hostList base pl).length = hostCount pl := by
  unfold hostList hostCount
  by_cases h32 : (pl == 32) = true
  · rw [if_pos h32, if_pos h32]
    rfl
  · rw [if_neg h32, if_neg h32]
    by_cases h31 : (pl == 31) = true
    · rw [if_pos h31, if_pos h31]
      rfl
    · rw [if_neg h31, if_neg h31, List.length_map, List.length_range]

theorem numAddresses_le_of_hostCount_le {pl : Nat} (h : hostCount pl ≤ 1024) :
    2 ^ (32 - pl) ≤ 1024 := by
  unfold hostCount at h
  by_cases h32 : (pl == 32) = true
  · have he : pl = 32 := by simpa using h32
    subst he
    decide
  · rw [if_neg h32] at h
    by_cases h31 : (pl == 31) = true
    · have he : pl = 31 := by simpa using h31
      subst he
      decide
    · rw [if_neg h31] at h
      by_cases hp : 22 ≤ pl
      · calc 2 ^ (32 - pl) ≤ 2 ^ 10 := Nat.pow_le_pow_right (by decide) (by omega)
          _ ≤ 1024 := by decide
      · exfalso
        have h11 : 11 ≤ 32 - pl := by omega
        have hpow : 2 ^ 11 ≤ 2 ^ (32 - pl) := Nat.pow_le_pow_right (by decide) h11
        have h2048 : (2 : Nat) ^ 11 = 2048 := by norm_num
        omega

theorem numAddresses_gt_of_hostCount_gt {pl : Nat} (h : 1024 < hostCount pl) :
    1024 < 2 ^ (32 - pl) := by
  unfold hostCount at h
  by_cases h32 : (pl == 32) = true
  · rw [if_pos h32] at h; omega
  · rw [if_neg h32] at h
    by_cases h31 : (pl == 31) = true
    · rw [if_pos h31] at h; omega
    · rw [if_neg h31] at h; omega

theorem lookup_ok_error (c : CityResp) (a : AsnResp) (proxy : ProxyResult)
    (hasOrg : Bool) (dbs : List (String × DbData)) (ip : String) :
    dictGet (lookup_ip (GeoResult.ok c a) proxy hasOrg dbs ip) "error" = Val.none := by
  show dictGet (mergeOrg (mergeProxy (baseRecord c a ip) proxy) hasOrg dbs ip) "error" = Val.none
  rw [dictGet_mergeOrg_ne _ _ _ _ (by decide) (by decide) (by decide),
    dictGet_mergeProxy _ _ (by decide) (by decide) (by decide) (by decide) (by decide)]
  rfl

/-! ## Claim theorems -/

set_option maxRecDepth 40000 in
/-- C3 counterexample: 10.0.0.0/24 is a valid CIDR block with host count
254 and at most 1024 hosts, yet expansion returns zero addresses — none
of its host addresses is globally routable — contradicting "returns
exactly host_count globally-routable addresses". -/
theorem c3_counterexample :
    parseNetwork "10.0.0.0/24" = some (ipNum 10 0 0 0, 24) ∧
    hostCount 24 = 254 ∧
    expand_cidr "10.0.0.0/24" = Except.ok [] ∧
    ([] : List String).length ≠ hostCount 24 := by
  exact ⟨by decide, by decide, by decide, by decide⟩

/-- C3 (amended): for every valid CIDR block whose host count is at most
1024, expansion succeeds and returns exactly the globally-routable subset
of the block's host addresses (network and broadcast excluded for blocks
larger than a single host, via hosts()); the returned count never exceeds
host_count and equals host_count exactly when every host address is
globally routable — as in the 8.8.8.0/24 scenario (254 addresses,
first 8.8.8.1, last 8.8.8.254). -/
theorem c3_cidr_expansion (s : String) (base pl : Nat)
    (hp : parseNetwork s = some (base, pl)) (hc : hostCount pl ≤ 1024) :
    expand_cidr s = Except.ok (((hostList base pl).filter isGlobalIp).map ipToString) ∧
    (((hostList base pl).filter isGlobalIp).map ipToString).length ≤ hostCount pl ∧
    ((∀ h ∈ hostList base pl, isGlobalIp h = true) →
      (((hostList base pl).filter isGlobalIp).map ipToString).length = hostCount pl) := by
  refine ⟨?_, ?_, ?_⟩
  · unfold expand_cidr
    rw [hp]
    show (if 2 ^ (32 - pl) > 1024 then
        Except.error ("CIDR block " ++ s ++ " too large (max 1024 IPs)")
      else Except.ok (((hostList base pl).filter isGlobalIp).map ipToString)) = _
    rw [if_neg (by
      have := numAddresses_le_of_hostCount_le hc
      omega)]
  · rw [List.length_map]
    calc ((hostList base pl).filter isGlobalIp).length
        ≤ (hostList base pl).length := List.length_filter_le _ _
      _ = hostCount pl := hostList_length base pl
  · intro hall
    rw [List.length_map, List.filter_eq_self.mpr hall, hostList_length]

set_option maxRecDepth 40000 in
/-- C3 witness: the amended theorem applied to 8.8.8.0/24, whose 254
hosts are all globally routable. -/
theorem c3_cidr_expansion_witness :
    hostCount 24 ≤ 1024 ∧
    expand_cidr "8.8.8.0/24"
      = Except.ok (((hostList (ipNum 8 8 8 0) 24).filter isGlobalIp).map ipToString) ∧
    (expand_cidr "8.8.8.0/24").map (fun l => (l.length, l.head?, l.getLast?))
      = Except.ok (254, some "8.8.8.1", some "8.8.8.254") :=
  ⟨by decide,
   (c3_cidr_expansion "8.8.8.0/24" (ipNum 8 8 8 0) 24 (by decide) (by decide)).1,
   by decide⟩

/-- C4: expanding any CIDR block whose host count exceeds 1024 fails with
the error message naming the offending block and the 1024 limit, and no
addresses are returned (the result is an error, not a truncated list). -/
theorem c4_cidr_limit (s : String) (base pl : Nat)
    (hp : parseNetwork s = some (base, pl)) (hc : 1024 < hostCount pl) :
    expand_cidr s = Except.error ("CIDR block " ++ s ++ " too large (max 1024 IPs)") ∧
    strContains ("CIDR block " ++ s ++ " too large (max 1024 IPs)") s = true ∧
    strContains ("CIDR block " ++ s ++ " too large (max 1024 IPs)") "1024" = true := by
  refine ⟨?_, ?_, ?_⟩
  · unfold expand_cidr
    rw [hp]
    show (if 2 ^ (32 - pl) > 1024 then
        Except.error ("CIDR block " ++ s ++ " too large (max 1024 IPs)")
      else Except.ok (((hostList base pl).filter isGlobalIp).map ipToString)) = _
    rw [if_pos (numAddresses_gt_of_hostCount_gt hc)]
  · unfold strContains
    apply decide_eq_true
    rw [String.data_append, String.data_append]
    exact List.infix_append _ _ _
  · unfold strContains
    apply decide_eq_true
    have h1 : ("1024" : String).data <:+: (" too large (max 1024 IPs)" : String).data := by
      decide
    have h2 : (" too large (max 1024 IPs)" : String).data
        <:+: ("CIDR block " ++ s ++ " too large (max 1024 IPs)").data := by
      rw [String.data_append]
      exact (List.suffix_append _ _).isInfix
    exact h1.trans h2

/-- C4 witness: the /12 block at 8.8.0.0 (1048574 hosts) is rejected with
the descriptive message and yields no addresses. -/
theorem c4_cidr_limit_witness :
    1024 < hostCount 12 ∧
    expand_cidr "8.8.0.0/12"
      = Except.error "CIDR block 8.8.0.0/12 too large (max 1024 IPs)" :=
  ⟨by decide,
   (c4_cidr_limit "8.8.0.0/12" (ipNum 8 0 0 0) 12 (by decide) (by decide)).1⟩

/-- C7: attribution loading is resilient per file: the loaded databases
are exactly the independently deserialized files in directory order, a
file that fails to load is skipped while the others still load, and when
no file loads the loader reports failure and every subsequent lookup
returns not-found instead of raising. -/
theorem c7_load_resilience (files : List (String × BinFile)) :
    (load_databases (DirState.present files)).2.databases = files.filterMap loadEntry ∧
    (∀ (pre post : List (String × BinFile)) (bad : String × BinFile),
      loadEntry bad = Option.none →
      (pre ++ bad :: post).filterMap loadEntry = (pre ++ post).filterMap loadEntry) ∧
    ((∀ e ∈ files, loadEntry e = Option.none) →
      (load_databases (DirState.present files)).1 = false ∧
      ∀ ip, orgLookupIp (load_databases (DirState.present files)).2.databases ip
        = Option.none) := by
  refine ⟨?_, ?_, ?_⟩
  · cases files with
    | nil => rfl
    | cons f fs => rfl
  · intro pre post bad hbad
    rw [List.filterMap_append, List.filterMap_append]
    simp [List.filterMap_cons, hbad]
  · intro hall
    have hnil : files.filterMap loadEntry = [] := List.filterMap_eq_nil_iff.mpr hall
    constructor
    · cases files with
      | nil => rfl
      | cons f fs =>
        show (!((f :: fs).filterMap loadEntry).isEmpty) = false
        rw [hnil]
        rfl
    · intro ip
      cases files with
      | nil => rfl
      | cons f fs =>
        show orgLookupIp ((f :: fs).filterMap loadEntry) ip = Option.none
        rw [hnil]
        rfl

/-- C7 witness: one corrupt gzip file next to one valid plain file — the
valid file loads; with only the corrupt file, loading reports failure and
lookups return not-found. -/
theorem c7_load_resilience_witness :
    (load_databases (DirState.present
        [("a", BinFile.gz PickleBlob.corrupt),
         ("b", BinFile.plain (PickleBlob.ok (PyObj.db dbMultiZero)))])).2.databases
      = [("b", dbMultiZero)] ∧
    load_databases (DirState.present [("a", BinFile.gz PickleBlob.corrupt)])
      = (false, ⟨[], true⟩) ∧
    orgLookupIp (load_databases (DirState.present
        [("a", BinFile.gz PickleBlob.corrupt)])).2.databases "1.2.3.4"
      = Option.none := by
  have h := c7_load_resilience [("a", BinFile.gz PickleBlob.corrupt)]
  have h2 := (h.2.2 (by decide)).2 "1.2.3.4"
  exact ⟨by decide, by decide, h2⟩

/-- C8: the attribution loader reads the same dataset identically from
its gzip-compressed and its uncompressed encodings — decompression is
attempted first with a transparent fallback — so lookup results agree
for every address. -/
theorem c8_encoding_roundtrip (p : PickleBlob) (name ip : String) (o : PyObj) :
    loadSingleDatabase (BinFile.gz p) = loadSingleDatabase (BinFile.plain p) ∧
    loadSingleDatabase (BinFile.gz (PickleBlob.ok o)) = some o ∧
    loadSingleDatabase (BinFile.plain (PickleBlob.ok o)) = some o ∧
    orgLookupIp (load_databases (DirState.present [(name, BinFile.gz p)])).2.databases ip
      = orgLookupIp (load_databases
          (DirState.present [(name, BinFile.plain p)])).2.databases ip := by
  refine ⟨?_, rfl, rfl, ?_⟩
  · cases p <;> rfl
  · cases p <;> rfl

/-- C1 counterexample: a pipeline record whose error field is set to the
empty string (the passthrough `str(e)` of an exception with an empty
message) is treated as error-free by the filter's truthiness guard; with
a country criterion configured the filter then raises KeyError on the
missing country key instead of keeping the record. -/
theorem c1_counterexample :
    dictGet (lookup_ip (GeoResult.exc (GeoExc.other "")) ProxyResult.noDb false [] "1.2.3.4")
        "error" ≠ Val.none ∧
    filter_results
        (mkResultFilter (some ["US"]) Option.none Option.none Option.none false false
          Option.none Option.none)
        [lookup_ip (GeoResult.exc (GeoExc.other "")) ProxyResult.noDb false [] "1.2.3.4"]
      = Except.error "country" ∧
    filter_results
        (mkResultFilter (some ["US"]) Option.none Option.none Option.none false false
          Option.none Option.none)
        [lookup_ip (GeoResult.exc (GeoExc.other "")) ProxyResult.noDb false [] "1.2.3.4"]
      ≠ Except.ok [lookup_ip (GeoResult.exc (GeoExc.other "")) ProxyResult.noDb false [] "1.2.3.4"] := by
  exact ⟨by decide, by decide, by decide⟩

/-- C1 (amended): every pipeline record whose error field is set to a
non-empty message carries only the address and error keys (all other
enrichment fields absent), and the filter never excludes it: whatever
the criteria, should_exclude returns false and filter_results keeps the
record.  (A record whose error is the empty string is instead treated as
error-free by the filter's truthiness guard.) -/
theorem c1_error_passthrough (f : ResultFilter) (geo : GeoResult) (proxy : ProxyResult)
    (hasOrg : Bool) (dbs : List (String × DbData)) (ip msg : String)
    (hmsg : dictGet (lookup_ip geo proxy hasOrg dbs ip) "error" = Val.str msg)
    (hne : msg ≠ "") :
    recordKeys (lookup_ip geo proxy hasOrg dbs ip) = ["ip", "error"] ∧
    should_exclude f (lookup_ip geo proxy hasOrg dbs ip) = Except.ok false ∧
    (∀ rs out, filter_results f rs = Except.ok out →
      lookup_ip geo proxy hasOrg dbs ip ∈ rs →
      lookup_ip geo proxy hasOrg dbs ip ∈ out) := by
  cases geo with
  | ok c a =>
    rw [lookup_ok_error c a proxy hasOrg dbs ip] at hmsg
    exact Val.noConfusion hmsg
  | exc e =>
    have hshape : ∃ m, lookup_ip (GeoResult.exc e) proxy hasOrg dbs ip
        = [("ip", Val.str ip), ("error", Val.str m)] := by
      cases e with
      | addressNotFound => exact ⟨_, rfl⟩
      | valueError => exact ⟨_, rfl⟩
      | other m => exact ⟨m, rfl⟩
    obtain ⟨m, hrec⟩ := hshape
    rw [hrec] at hmsg ⊢
    have hm : m = msg := by
      have h2 : Val.str m = Val.str msg := hmsg
      injection h2
    subst hm
    have htr : (Val.str m).truthy = true := by
      show (!m.data.isEmpty) = true
      cases hm2 : m.data with
      | nil =>
        exfalso
        exact hne (String.ext hm2)
      | cons ch cs => rfl
    have hse : should_exclude f [("ip", Val.str ip), ("error", Val.str m)]
        = Except.ok false := by
      unfold should_exclude
      rw [if_pos (show (dictGet [("ip", Val.str ip), ("error", Val.str m)] "error").truthy
        = true from htr)]
    exact ⟨rfl, hse, fun rs out hf hmem => filter_keeps hse rs out hf hmem⟩

/-- C1 witness: the address-not-found record passes a filter with every
axis configured. -/
theorem c1_error_passthrough_witness :
    dictGet (lookup_ip (GeoResult.exc GeoExc.addressNotFound) ProxyResult.noDb false []
        "8.8.8.8") "error" = Val.str "IP not found in database" ∧
    recordKeys (lookup_ip (GeoResult.exc GeoExc.addressNotFound) ProxyResult.noDb false []
        "8.8.8.8") = ["ip", "error"] ∧
    should_exclude allAxesFilter
        (lookup_ip (GeoResult.exc GeoExc.addressNotFound) ProxyResult.noDb false [] "8.8.8.8")
      = Except.ok false := by
  have h := c1_error_passthrough allAxesFilter (GeoResult.exc GeoExc.addressNotFound)
    ProxyResult.noDb false [] "8.8.8.8" "IP not found in database" (by decide) (by decide)
  exact ⟨by decide, h.1, h.2.1⟩

/-- C5 counterexample: a dataset that contains the address — its rows
hold the attribution data and its ip index maps the address to row 0 —
yields no hit, because Python's `if matching_indices:` treats the plain
int index 0 as falsy; the merged record keeps the defaults instead of
the dataset's org_id/platform. -/
theorem c5_counterexample :
    assocFind dbSingleZero.indexes "ip" = some [("1.2.3.4", IdxVal.single 0)] ∧
    pyListGet dbSingleZero.rows (0 : Int) = some sampleRow ∧
    dictGet sampleRow "org_id" = Val.str "o-1" ∧
    orgLookupIp [("aws", dbSingleZero)] "1.2.3.4" = Option.none ∧
    dictGet (lookup_ip (GeoResult.ok cityNone asnNone) ProxyResult.noDb true
        [("aws", dbSingleZero)] "1.2.3.4") "org_managed" = Val.bool false ∧
    dictGet (lookup_ip (GeoResult.ok cityNone asnNone) ProxyResult.noDb true
        [("aws", dbSingleZero)] "1.2.3.4") "org_id" = Val.none ∧
    dictGet (lookup_ip (GeoResult.ok cityNone asnNone) ProxyResult.noDb true
        [("aws", dbSingleZero)] "1.2.3.4") "platform" = Val.none := by
  exact ⟨by decide, by decide, by decide, by decide, by decide, by decide, by decide⟩

/-- C5 (amended): the attribution fields form an all-or-nothing unit with
first-hit-wins across datasets in load order: a hit sets org_managed=true
together with the hit's org_id and platform; when attribution is off or
no dataset yields a hit — the address is absent from every ip index, or
its index entry is falsy (the int 0 or an empty collection) — all three
fields keep their defaults; a dataset that hits shadows all later ones
and a dataset that misses delegates to the rest. -/
theorem c5_attribution_merge (c : CityResp) (a : AsnResp) (proxy : ProxyResult)
    (hasOrg : Bool) (dbs : List (String × DbData)) (ip : String) :
    (∀ m oid pf, hasOrg = true → orgLookupIp dbs ip = some (m, oid, pf) →
      m = Val.bool true ∧
      dictGet (lookup_ip (GeoResult.ok c a) proxy hasOrg dbs ip) "org_managed"
        = Val.bool true ∧
      dictGet (lookup_ip (GeoResult.ok c a) proxy hasOrg dbs ip) "org_id" = oid ∧
      dictGet (lookup_ip (GeoResult.ok c a) proxy hasOrg dbs ip) "platform" = pf) ∧
    ((hasOrg = false ∨ orgLookupIp dbs ip = Option.none) →
      dictGet (lookup_ip (GeoResult.ok c a) proxy hasOrg dbs ip) "org_managed"
        = Val.bool false ∧
      dictGet (lookup_ip (GeoResult.ok c a) proxy hasOrg dbs ip) "org_id" = Val.none ∧
      dictGet (lookup_ip (GeoResult.ok c a) proxy hasOrg dbs ip) "platform" = Val.none) ∧
    (∀ name d rest res, lookupInDatabase ip d = some res →
      orgLookupIp ((name, d) :: rest) ip = some res) ∧
    (∀ name d rest, lookupInDatabase ip d = Option.none →
      orgLookupIp ((name, d) :: rest) ip = orgLookupIp rest ip) := by
  refine ⟨?_, ?_,
    fun name d rest res h => orgLookupIp_cons_hit name d rest ip res h,
    fun name d rest h => orgLookupIp_cons_miss name d rest ip h⟩
  · intro m oid pf horg hsome
    subst horg
    have hm : m = Val.bool true := by
      have := orgLookupIp_managed dbs ip (m, oid, pf) hsome
      simpa using this
    refine ⟨hm, ?_, ?_, ?_⟩
    · show dictGet (mergeOrg (mergeProxy (baseRecord c a ip) proxy) true dbs ip)
        "org_managed" = Val.bool true
      rw [mergeOrg_hit _ _ _ _ _ _ hsome, dictGet_dictSet_ne _ _ (by decide),
        dictGet_dictSet_ne _ _ (by decide), dictGet_dictSet_self, hm]
    · show dictGet (mergeOrg (mergeProxy (baseRecord c a ip) proxy) true dbs ip)
        "org_id" = oid
      rw [mergeOrg_hit _ _ _ _ _ _ hsome, dictGet_dictSet_ne _ _ (by decide),
        dictGet_dictSet_self]
    · show dictGet (mergeOrg (mergeProxy (baseRecord c a ip) proxy) true dbs ip)
        "platform" = pf
      rw [mergeOrg_hit _ _ _ _ _ _ hsome, dictGet_dictSet_self]
  · intro h
    refine ⟨?_, ?_, ?_⟩
    · show dictGet (mergeOrg (mergeProxy (baseRecord c a ip) proxy) hasOrg dbs ip)
        "org_managed" = Val.bool false
      rw [mergeOrg_miss _ _ _ _ h, dictGet_mergeProxy _ _ (by decide) (by decide)
        (by decide) (by decide) (by decide)]
      rfl
    · show dictGet (mergeOrg (mergeProxy (baseRecord c a ip) proxy) hasOrg dbs ip)
        "org_id" = Val.none
      rw [mergeOrg_miss _ _ _ _ h, dictGet_mergeProxy _ _ (by decide) (by decide)
        (by decide) (by decide) (by decide)]
      rfl
    · show dictGet (mergeOrg (mergeProxy (baseRecord c a ip) proxy) hasOrg dbs ip)
        "platform" = Val.none
      rw [mergeOrg_miss _ _ _ _ h, dictGet_mergeProxy _ _ (by decide) (by decide)
        (by decide) (by decide) (by decide)]
      rfl

/-- C5 witness: a truthy index entry ([0]) hits row 0 and the merged
record carries the dataset's attribution triple. -/
theorem c5_attribution_merge_witness :
    orgLookupIp [("aws", dbMultiZero)] "1.2.3.4"
      = some (Val.bool true, Val.str "o-1", Val.str "aws") ∧
    dictGet (lookup_ip (GeoResult.ok cityNone asnNone) ProxyResult.noDb true
        [("aws", dbMultiZero)] "1.2.3.4") "org_managed" = Val.bool true ∧
    dictGet (lookup_ip (GeoResult.ok cityNone asnNone) ProxyResult.noDb true
        [("aws", dbMultiZero)] "1.2.3.4") "org_id" = Val.str "o-1" ∧
    dictGet (lookup_ip (GeoResult.ok cityNone asnNone) ProxyResult.noDb true
        [("aws", dbMultiZero)] "1.2.3.4") "platform" = Val.str "aws" := by
  have h := (c5_attribution_merge cityNone asnNone ProxyResult.noDb true
    [("aws", dbMultiZero)] "1.2.3.4").1 (Val.bool true) (Val.str "o-1") (Val.str "aws")
    rfl (by decide)
  exact ⟨by decide, h.2.1, h.2.2.1, h.2.2.2⟩

/-- C9: every merged record satisfies the key-set dichotomy — either the
error field is set and the record carries only the ip and error keys, or
the error field is None and every enrichment key is present; in the
error-free case the filter's unconditional subscript reads of country,
city and asn are total (they return the stored value, never KeyError). -/
theorem c9_key_dichotomy (geo : GeoResult) (proxy : ProxyResult) (hasOrg : Bool)
    (dbs : List (String × DbData)) (ip : String) :
    (∃ msg, dictGet (lookup_ip geo proxy hasOrg dbs ip) "error" = Val.str msg ∧
      recordKeys (lookup_ip geo proxy hasOrg dbs ip) = ["ip", "error"]) ∨
    (dictGet (lookup_ip geo proxy hasOrg dbs ip) "error" = Val.none ∧
      (∀ k ∈ enrichKeys, hasKey (lookup_ip geo proxy hasOrg dbs ip) k = true) ∧
      dictItem (lookup_ip geo proxy hasOrg dbs ip) "country"
        = Except.ok (dictGet (lookup_ip geo proxy hasOrg dbs ip) "country") ∧
      dictItem (lookup_ip geo proxy hasOrg dbs ip) "city"
        = Except.ok (dictGet (lookup_ip geo proxy hasOrg dbs ip) "city") ∧
      dictItem (lookup_ip geo proxy hasOrg dbs ip) "asn"
        = Except.ok (dictGet (lookup_ip geo proxy hasOrg dbs ip) "asn")) := by
  cases geo with
  | exc e =>
    refine Or.inl ?_
    cases e with
    | addressNotFound => exact ⟨_, rfl, rfl⟩
    | valueError => exact ⟨_, rfl, rfl⟩
    | other m => exact ⟨m, rfl, rfl⟩
  | ok c a =>
    have hkeys : ∀ k ∈ enrichKeys,
        hasKey (lookup_ip (GeoResult.ok c a) proxy hasOrg dbs ip) k = true := by
      intro k hk
      show hasKey (mergeOrg (mergeProxy (baseRecord c a ip) proxy) hasOrg dbs ip) k = true
      exact hasKey_mergeOrg _ _ _ _ (hasKey_mergeProxy _ _ (baseRecord_hasKeys c a ip k hk))
    refine Or.inr ⟨lookup_ok_error c a proxy hasOrg dbs ip, hkeys, ?_, ?_, ?_⟩
    · exact dictItem_eq_ok (hkeys "country" (by decide))
    · exact dictItem_eq_ok (hkeys "city" (by decide))
    · exact dictItem_eq_ok (hkeys "asn" (by decide))

/-- C9 witness: on a concrete error-free lookup the dichotomy's second
branch yields presence of the country key. -/
theorem c9_key_dichotomy_witness :
    hasKey (lookup_ip (GeoResult.ok cityNone asnNone) ProxyResult.noDb false [] "8.8.8.8")
      "country" = true := by
  rcases c9_key_dichotomy (GeoResult.ok cityNone asnNone) ProxyResult.noDb false []
      "8.8.8.8" with ⟨msg, hmsg, _⟩ | ⟨_, hkeys, _⟩
  · have hnone : dictGet (lookup_ip (GeoResult.ok cityNone asnNone) ProxyResult.noDb
        false [] "8.8.8.8") "error" = Val.none := by decide
    rw [hnone] at hmsg
    exact Val.noConfusion hmsg
  · exact hkeys "country" (by decide)

theorem pairLe_absent_imp {a b : Bool × Val} (h : pairLe a b = true) (ha : a.1 = true) :
    b.1 = true := by
  unfold pairLe at h
  by_cases he : (a.1 == b.1) = true
  · have h2 : a.1 = b.1 := by simpa using he
    rw [← h2, ha]
  · rw [if_neg he, ha] at h
    exact Bool.noConfusion h

/-- C2 counterexample: the inline sorter of ArgusApp.run (argus.py lines
102-105) coerces a missing asn to 0 before comparing, so the absent-asn
record sorts before every present value: the spec's scenario
[{asn 15169}, {asn 13335}, {asn None}] comes out [None, 13335, 15169],
not the claimed [13335, 15169, None]. -/
theorem c2_counterexample :
    run_sorted [recAsn15169, recAsn13335, recAsnNone] "asn"
      = [recAsnNone, recAsn13335, recAsn15169] ∧
    run_sorted [recAsn15169, recAsn13335, recAsnNone] "asn"
      ≠ [recAsn13335, recAsn15169, recAsnNone] := by
  exact ⟨by decide, by decide⟩

/-- C2 (amended): LookupCommand._sort_results is a stable ascending sort
by the chosen field in which every absent/None record sorts after every
present value and absent records keep their input order among
themselves, and the asn scenario yields [13335, 15169, None]; the legacy
ArgusApp.run sorter instead coerces absent values to ""/0 and orders
them first. -/
theorem c2_sort_results_spec (results : List Record) (sortBy : String) :
    (sort_results results sortBy).Perm results ∧
    List.Pairwise (fun x y => pairLe (sortKeyCmd sortBy x) (sortKeyCmd sortBy y) = true)
      (sort_results results sortBy) ∧
    List.Pairwise (fun x y => (sortKeyCmd sortBy x).1 = true → (sortKeyCmd sortBy y).1 = true)
      (sort_results results sortBy) ∧
    (∀ c : List Record,
      c.Pairwise (fun x y => pairLe (sortKeyCmd sortBy x) (sortKeyCmd sortBy y) = true) →
      c.Sublist results → c.Sublist (sort_results results sortBy)) ∧
    (sort_results results sortBy).filter (fun r => (sortKeyCmd sortBy r).1)
      = results.filter (fun r => (sortKeyCmd sortBy r).1) ∧
    sort_results [recAsn15169, recAsn13335, recAsnNone] "asn"
      = [recAsn13335, recAsn15169, recAsnNone] := by
  haveI instTr : IsTrans Record
      (fun x y => pairLe (sortKeyCmd sortBy x) (sortKeyCmd sortBy y) = true) :=
    ⟨fun _ _ _ h1 h2 => pairLe_trans h1 h2⟩
  haveI instTo : IsTotal Record
      (fun x y => pairLe (sortKeyCmd sortBy x) (sortKeyCmd sortBy y) = true) :=
    ⟨fun a b => by
      have h := pairLe_total (sortKeyCmd sortBy a) (sortKeyCmd sortBy b)
      by_cases h1 : pairLe (sortKeyCmd sortBy a) (sortKeyCmd sortBy b) = true
      · exact Or.inl h1
      · right
        have h1' : pairLe (sortKeyCmd sortBy a) (sortKeyCmd sortBy b) = false := by
          simpa using h1
        rw [h1'] at h
        simpa using h⟩
  have hperm : (sort_results results sortBy).Perm results := by
    show (List.insertionSort _ results).Perm results
    exact List.perm_insertionSort _ results
  have hsorted : List.Pairwise
      (fun x y => pairLe (sortKeyCmd sortBy x) (sortKeyCmd sortBy y) = true)
      (sort_results results sortBy) := by
    show List.Pairwise _ (List.insertionSort _ results)
    exact List.sorted_insertionSort _ results
  refine ⟨hperm, hsorted, ?_, ?_, ?_, by decide⟩
  · exact hsorted.imp (fun h ha => pairLe_absent_imp h ha)
  · intro c hcp hcs
    exact List.sublist_insertionSort hcp hcs
  · have hpair : (results.filter (fun r => (sortKeyCmd sortBy r).1)).Pairwise
        (fun x y => pairLe (sortKeyCmd sortBy x) (sortKeyCmd sortBy y) = true) := by
      apply List.pairwise_of_forall_mem_list
      intro x hx y hy
      rw [sortKeyCmd_absent (List.mem_filter.mp hx).2,
        sortKeyCmd_absent (List.mem_filter.mp hy).2]
      rfl
    have hsub : (results.filter (fun r => (sortKeyCmd sortBy r).1)).Sublist
        (sort_results results sortBy) :=
      List.sublist_insertionSort hpair (List.filter_sublist results)
    have h1 : (results.filter (fun r => (sortKeyCmd sortBy r).1)).Sublist
        ((sort_results results sortBy).filter (fun r => (sortKeyCmd sortBy r).1)) := by
      have h2 := hsub.filter (fun r => (sortKeyCmd sortBy r).1)
      rwa [List.filter_eq_self.mpr (fun a ha => (List.mem_filter.mp ha).2)] at h2
    have hpermf : ((sort_results results sortBy).filter
        (fun r => (sortKeyCmd sortBy r).1)).Perm
        (results.filter (fun r => (sortKeyCmd sortBy r).1)) := hperm.filter _
    exact (h1.eq_of_length hpermf.length_eq.symm).symm

/-- C2 witness: the amended theorem at the spec's scenario list. -/
theorem c2_sort_results_spec_witness :
    sort_results [recAsn15169, recAsn13335, recAsnNone] "asn"
      = [recAsn13335, recAsn15169, recAsnNone] ∧
    (sort_results [recAsn15169, recAsn13335, recAsnNone] "asn").filter
        (fun r => (sortKeyCmd "asn" r).1)
      = [recAsn15169, recAsn13335, recAsnNone].filter (fun r => (sortKeyCmd "asn" r).1) := by
  have h := c2_sort_results_spec [recAsn15169, recAsn13335, recAsnNone] "asn"
  exact ⟨h.2.2.2.2.2, h.2.2.2.2.1⟩

/-- C6: an exclusion axis whose record field is absent/None never
matches: on an error-free record with the filter-read keys present, a
None country makes the country criteria irrelevant (removing them does
not change the verdict), and likewise for city, asn, asn_org, platform
and org_id. -/
theorem c6_none_never_matches (f : ResultFilter) (r : Record)
    (hkc : hasKey r "country" = true) (hkci : hasKey r "city" = true)
    (hka : hasKey r "asn" = true) (herr : dictGet r "error" = Val.none) :
    (dictGet r "country" = Val.none →
      should_exclude f r = should_exclude { f with exclude_countries := [] } r) ∧
    (dictGet r "city" = Val.none →
      should_exclude f r = should_exclude { f with exclude_cities := [] } r) ∧
    (dictGet r "asn" = Val.none →
      should_exclude f r = should_exclude { f with exclude_asns := [] } r) ∧
    (dictGet r "asn_org" = Val.none →
      should_exclude f r = should_exclude { f with exclude_orgs := [] } r) ∧
    (dictGet r "platform" = Val.none →
      should_exclude f r = should_exclude { f with exclude_platforms := [] } r) ∧
    (dictGet r "org_id" = Val.none →
      should_exclude f r = should_exclude { f with exclude_org_ids := [] } r) := by
  have hcond : ¬ ((Val.none.truthy) = true) := by decide
  refine ⟨?_, ?_, ?_, ?_, ?_, ?_⟩
  · intro hv
    unfold should_exclude
    rw [herr, if_neg hcond, if_neg hcond]
    unfold exclude_by_location
    rw [dictItem_eq_ok hkc, hv, memClause_none_val, memClause_none_val]
    rfl
  · intro hv
    unfold should_exclude
    rw [herr, if_neg hcond, if_neg hcond]
    unfold exclude_by_location
    rw [dictItem_eq_ok hkci, hv, memClause_none_val, memClause_none_val]
    rfl
  · intro hv
    unfold should_exclude
    rw [herr, if_neg hcond, if_neg hcond]
    unfold exclude_by_asn
    rw [dictItem_eq_ok hka, hv, asnClause_none_val, asnClause_none_val]
    rfl
  · intro hv
    unfold should_exclude
    rw [herr, if_neg hcond, if_neg hcond]
    unfold exclude_by_asn
    rw [hv, orgsClause_none_val, orgsClause_none_val]
    rfl
  · intro hv
    unfold should_exclude
    rw [herr, if_neg hcond, if_neg hcond]
    unfold exclude_by_org_status
    rw [hv, memClause_none_val, memClause_none_val]
    rfl
  · intro hv
    unfold should_exclude
    rw [herr, if_neg hcond, if_neg hcond]
    unfold exclude_by_org_status
    rw [hv, memClause_none_val, memClause_none_val]
    rfl

/-- C6 witness: the record with all six fields None survives the filter
with every text/numeric axis configured, and removing the country axis
changes nothing. -/
theorem c6_none_never_matches_witness :
    should_exclude sixAxesFilter noneFieldsRecord
      = should_exclude { sixAxesFilter with exclude_countries := [] } noneFieldsRecord ∧
    should_exclude sixAxesFilter noneFieldsRecord = Except.ok false := by
  have h := c6_none_never_matches sixAxesFilter noneFieldsRecord (by decide) (by decide)
    (by decide) (by decide)
  exact ⟨h.1 (by decide), by decide⟩

/-- C10: free-text extraction returns each qualifying (well-formed,
globally-routable) regex match exactly once, ordered by code-point
lexicographic comparison of the dotted-quad strings — not numerically:
"100.1.1.1" precedes "99.1.1.1". -/
theorem c10_extract_sorted (text : String) :
    List.Pairwise (fun a b => strLt a b = true) (extract_ips text) ∧
    (∀ s ∈ extract_ips text, pyIpCheck s = true) ∧
    (∀ s, s ∈ extract_ips text ↔ s ∈ ipMatches text ∧ pyIpCheck s = true) ∧
    extract_ips "100.1.1.1 99.1.1.1" = ["100.1.1.1", "99.1.1.1"] ∧
    strLt "100.1.1.1" "99.1.1.1" = true := by
  haveI instTr : IsTrans String (fun a b => strLe a b = true) :=
    ⟨fun _ _ _ h1 h2 => strLe_trans h1 h2⟩
  haveI instTo : IsTotal String (fun a b => strLe a b = true) :=
    ⟨fun a b => by
      have h := strLe_total a b
      by_cases h1 : strLe a b = true
      · exact Or.inl h1
      · right
        have h1' : strLe a b = false := by simpa using h1
        rw [h1'] at h
        simpa using h⟩
  have hperm : (extract_ips text).Perm (((ipMatches text).filter pyIpCheck).dedup) := by
    show (List.insertionSort _ _).Perm _
    exact List.perm_insertionSort _ _
  have hnodup : (extract_ips text).Nodup :=
    hperm.symm.nodup (List.nodup_dedup _)
  have hsorted : List.Pairwise (fun a b => strLe a b = true) (extract_ips text) := by
    show List.Pairwise _ (List.insertionSort _ _)
    exact List.sorted_insertionSort _ _
  refine ⟨?_, ?_, ?_, by decide, by decide⟩
  · have hne : List.Pairwise (fun a b : String => a ≠ b) (extract_ips text) := hnodup
    exact (hsorted.and hne).imp (fun h => strLt_of_le_ne h.1 h.2)
  · intro s hs
    have hmem : s ∈ ((ipMatches text).filter pyIpCheck).dedup := hperm.mem_iff.mp hs
    exact (List.mem_filter.mp (List.mem_dedup.mp hmem)).2
  · intro s
    rw [hperm.mem_iff, List.mem_dedup, List.mem_filter]

/-- C10 witness: the theorem at the spec's two-address text, plus the
qualifying check on a returned element. -/
theorem c10_extract_sorted_witness :
    extract_ips "100.1.1.1 99.1.1.1" = ["100.1.1.1", "99.1.1.1"] ∧
    pyIpCheck "99.1.1.1" = true := by
  have h := c10_extract_sorted "100.1.1.1 99.1.1.1"
  refine ⟨h.2.2.2.1, ?_⟩
  exact h.2.1 "99.1.1.1" (by rw [h.2.2.2.1]; decide)

end Argus
